import Mathlib

/-!
Shallow embedding of the `wall-clock` Rust crate (src/lib.rs, src/serde.rs,
src/db.rs) and verification of its specification.

Machine integers are modelled as `Nat` with explicit `% 2^32` (resp. `% 256`)
wherever Rust performs wrapping `u32` arithmetic or an `as u8` / `as u32` cast.
Panicking constructors are modelled with `Option` (`none` = panic); fallible
parsing is modelled with `Except String` carrying the source error strings.
Strings are modelled as `List Char`.
-/

namespace WallClock

/-- One decimal digit character, as produced by formatting an unsigned integer
in decimal (the catch-all arm is never reached for digit inputs). -/
def digitChar : Nat → Char
| 0 => '0'
| 1 => '1'
| 2 => '2'
| 3 => '3'
| 4 => '4'
| 5 => '5'
| 6 => '6'
| 7 => '7'
| 8 => '8'
| 9 => '9'
| _ => '!'

/-- Numeric value of an ASCII digit character. -/
def digitVal (c : Char) : Nat := c.toNat - 48

/-- Decimal representation of an unsigned integer, most significant digit
first, no leading zeros (and "0" for zero): the digits Rust `Display` emits. -/
def toDecimal (n : Nat) : List Char :=
  if _h : n < 10 then [digitChar n]
  else toDecimal (n / 10) ++ [digitChar (n % 10)]
decreasing_by omega

/-- Zero-padded decimal formatting of an unsigned integer to minimum width
`w`: the Rust format specifier of the form {:0w}. -/
def padZeros (w : Nat) (n : Nat) : List Char :=
  List.replicate (w - (toDecimal n).length) '0' ++ toDecimal n

/-- The struct `WallClockTime` of src/lib.rs: field `seconds` is the number of
seconds elapsed since midnight (Rust `u32`), field `micros` the number of
microseconds elapsed since `seconds` (Rust `u32`). -/
structure WallClockTime where
  seconds : Nat
  micros : Nat
deriving Repr, DecidableEq

/-- Constructor `WallClockTime::new_with_micros` of src/lib.rs. The four
asserts panic when a bound is violated; a panic is modelled as `none`. -/
def new_with_micros (hours minutes seconds micros : Nat) : Option WallClockTime :=
  if hours < 24 then
    if minutes < 60 then
      if seconds < 60 then
        if micros < 1000000 then
          some ⟨hours * 3600 + minutes * 60 + seconds, micros⟩
        else none
      else none
    else none
  else none

/-- Constructor `WallClockTime::new` of src/lib.rs: delegates to
`new_with_micros` with zero microseconds. -/
def new (hours minutes seconds : Nat) : Option WallClockTime :=
  new_with_micros hours minutes seconds 0

/-- Constructor `WallClockTime::new_midnight_offset` of src/lib.rs. The two
asserts panic when a bound is violated; a panic is modelled as `none`. -/
def new_midnight_offset (seconds micros : Nat) : Option WallClockTime :=
  if seconds < 86400 then
    if micros < 1000000 then some ⟨seconds, micros⟩ else none
  else none

/-- Accessor `WallClockTime::hour` of src/lib.rs: the Rust source computes
`(self.seconds / 3_600) as u8`; the `as u8` cast is `% 256`. -/
def hour (t : WallClockTime) : Nat := t.seconds / 3600 % 256

/-- Accessor `WallClockTime::minute` of src/lib.rs: the Rust source computes
`(self.seconds % 3600 / 60) as u8`. -/
def minute (t : WallClockTime) : Nat := t.seconds % 3600 / 60 % 256

/-- Accessor `WallClockTime::second` of src/lib.rs: the Rust source computes
`(self.seconds % 60) as u8`. -/
def second (t : WallClockTime) : Nat := t.seconds % 60 % 256

/-- Accessor `WallClockTime::microsecond` of src/lib.rs. -/
def microsecond (t : WallClockTime) : Nat := t.micros

/-- Output of the `Display` implementation of src/lib.rs, as a character
list: hour, minute and second each zero-padded to two digits and joined with
colons, followed, when `self.micros > 0`, by a dot and the microseconds
zero-padded to six digits. -/
def formatWCT (t : WallClockTime) : List Char :=
  padZeros 2 (hour t) ++ ':' :: (padZeros 2 (minute t) ++ ':' :: (padZeros 2 (second t)
    ++ (if 0 < t.micros then '.' :: padZeros 6 t.micros else [])))

/-- Behaviour of the Rust `str::split(char)` iterator, collected to a list:
splits at every occurrence of `sep`, keeping empty segments, and yields one
(possibly empty) segment even for the empty string. -/
def splitOnChar (sep : Char) : List Char → List (List Char)
| [] => [[]]
| c :: cs =>
  if c = sep then [] :: splitOnChar sep cs
  else
    match splitOnChar sep cs with
    | [] => [[c]]
    | seg :: rest => (c :: seg) :: rest

/-- Optional leading plus sign accepted by the Rust unsigned-integer
`FromStr` implementation. -/
def stripPlus : List Char → List Char
| [] => []
| c :: cs => if c = '+' then cs else c :: cs

/-- Behaviour of Rust `str::parse::<u32>()`: after an optional leading plus
sign the string must be a nonempty run of ASCII digits whose value fits in
32 bits; otherwise the parse fails. -/
def parseU32 (s : List Char) : Option Nat :=
  if stripPlus s = [] then none
  else if (stripPlus s).all Char.isDigit then
    if (stripPlus s).foldl (fun a c => a * 10 + digitVal c) 0 < 4294967296 then
      some ((stripPlus s).foldl (fun a c => a * 10 + digitVal c) 0)
    else none
  else none

/-- Second half of the `FromStr` implementation of src/lib.rs: split the
part before the dot on colons into exactly three fields, parse each as `u32`
(with the field-specific error), and build the value with seconds computed
as `hours * 3600 + minutes * 60 + seconds` in wrapping `u32` arithmetic. -/
def from_str_aux (hms : List Char) (micros : Nat) : Except String WallClockTime :=
  match splitOnChar ':' hms with
  | [hstr, mstr, sstr] =>
    match parseU32 hstr with
    | none => .error "Invalid HH"
    | some hours =>
      match parseU32 mstr with
      | none => .error "Invalid MM"
      | some minutes =>
        match parseU32 sstr with
        | none => .error "Invalid SS"
        | some seconds =>
          .ok ⟨(hours * 3600 + minutes * 60 + seconds) % 4294967296, micros⟩
  | _ => .error "Invalid HH:MM:SS specified"

/-- The `FromStr` implementation of src/lib.rs: split on the dot; more than
two segments is an error; a present second segment must parse as `u32`
microseconds; then the first segment is processed by `from_str_aux`. The
empty-list arm mirrors the unreachable `ok_or("Empty string")` branch of the
source (`split` always yields at least one segment). -/
def from_str (s : List Char) : Except String WallClockTime :=
  match splitOnChar '.' s with
  | [hms] => from_str_aux hms 0
  | [hms, fr] =>
    match parseU32 fr with
    | some micros => from_str_aux hms micros
    | none => .error "Invalid microseconds"
  | [] => .error "Empty string"
  | _ => .error "Only one `.` allowed in wall-clock times"

/-- The serde data model as the adapter of src/serde.rs observes it: the
deserializer hands the visitor either a string or a value of some other
shape. -/
inductive SerdeValue where
| str : List Char → SerdeValue
| nonString : SerdeValue
deriving Repr, DecidableEq

/-- The `Serialize` implementation of src/serde.rs:
`serializer.collect_str(&self.to_string())` emits the `Display` text as one
string. -/
def serialize (t : WallClockTime) : SerdeValue := .str (formatWCT t)

/-- The `Deserialize` implementation of src/serde.rs: `visit_str` parses the
string, surfacing the parse error message through `E::custom`; any
non-string shape hits the default visitor methods and yields a type error. -/
def deserialize : SerdeValue → Except String WallClockTime
| .str s => from_str s
| .nonString => .error "invalid type, expected a HH:MM:SS WallClockTime string"

/-- Rust cast of an `i64` to `u32`: the value modulo `2^32`. -/
def i64AsU32 (x : Int) : Nat := (x % 4294967296).toNat

/-- The `ToSql` implementation of src/db.rs: the encoded `PgTime` offset is
`self.seconds as i64 * 1_000_000 + self.micros as i64` (no overflow is
possible for `u32` inputs, so plain `Int` arithmetic is exact). -/
def to_sql (t : WallClockTime) : Int :=
  (t.seconds : Int) * 1000000 + (t.micros : Int)

/-- The `FromSql` implementation of src/db.rs: from the decoded `PgTime`
offset, `seconds` is `(offset / 1_000_000) as u32` and `micros` is
`(offset % 1_000_000) as u32`, with the Rust `i64` division and remainder
truncating toward zero. -/
def from_sql (offset : Int) : WallClockTime :=
  ⟨i64AsU32 (Int.tdiv offset 1000000), i64AsU32 (Int.tmod offset 1000000)⟩

/-! Helper lemmas about decimal formatting and unsigned parsing. -/

lemma digitChar_isDigit : ∀ d : Nat, d < 10 → (digitChar d).isDigit = true := by decide

lemma digitVal_digitChar : ∀ d : Nat, d < 10 → digitVal (digitChar d) = d := by decide

lemma toDecimal_ne_nil (n : Nat) : toDecimal n ≠ [] := by
  rw [toDecimal]
  split
  · simp
  · simp

lemma toDecimal_digits (n : Nat) : ∀ c ∈ toDecimal n, c.isDigit = true := by
  induction n using Nat.strong_induction_on with
  | _ n ih =>
    rw [toDecimal]
    split
    · next h =>
      intro c hc
      simp only [List.mem_singleton] at hc
      subst hc
      exact digitChar_isDigit n h
    · next h =>
      intro c hc
      rcases List.mem_append.mp hc with h1 | h2
      · exact ih (n / 10) (by omega) c h1
      · simp only [List.mem_singleton] at h2
        subst h2
        exact digitChar_isDigit (n % 10) (by omega)

lemma toDecimal_length_le : ∀ n k : Nat, 0 < k → n < 10 ^ k → (toDecimal n).length ≤ k := by
  intro n
  induction n using Nat.strong_induction_on with
  | _ n ih =>
    intro k hk hn
    rw [toDecimal]
    split
    · simpa using hk
    · next h =>
      have hk2 : 2 ≤ k := by
        rcases k with _ | _ | k
        · omega
        · norm_num at hn; omega
        · omega
      have hdiv : n / 10 < 10 ^ (k - 1) := by
        rw [Nat.div_lt_iff_lt_mul (by norm_num)]
        calc n < 10 ^ k := hn
          _ = 10 ^ (k - 1) * 10 := by
              rw [← pow_succ]
              congr 1
              omega
      have := ih (n / 10) (by omega) (k - 1) (by omega) hdiv
      simp only [List.length_append, List.length_cons, List.length_nil]
      omega

lemma toDecimal_foldl : ∀ n a : Nat,
    (toDecimal n).foldl (fun x c => x * 10 + digitVal c) a = a * 10 ^ (toDecimal n).length + n := by
  intro n
  induction n using Nat.strong_induction_on with
  | _ n ih =>
    intro a
    rw [toDecimal]
    split
    · next h =>
      simp only [List.foldl_cons, List.foldl_nil, List.length_cons, List.length_nil]
      rw [digitVal_digitChar n h]
      ring_nf
    · next h =>
      rw [List.foldl_append, ih (n / 10) (by omega) a]
      simp only [List.foldl_cons, List.foldl_nil, List.length_append, List.length_cons,
        List.length_nil]
      rw [digitVal_digitChar (n % 10) (by omega), pow_succ, add_mul, ← mul_assoc]
      generalize a * 10 ^ (toDecimal (n / 10)).length * 10 = b
      omega

lemma foldl_replicate_zero : ∀ k : Nat,
    (List.replicate k '0').foldl (fun x c => x * 10 + digitVal c) 0 = 0 := by
  intro k
  induction k with
  | zero => rfl
  | succ k ih =>
    rw [List.replicate_succ, List.foldl_cons]
    have h0 : 0 * 10 + digitVal '0' = 0 := by decide
    rw [h0, ih]

lemma padZeros_digits (w n : Nat) : ∀ c ∈ padZeros w n, c.isDigit = true := by
  intro c hc
  rcases List.mem_append.mp hc with h1 | h2
  · rw [List.eq_of_mem_replicate h1]; decide
  · exact toDecimal_digits n c h2

lemma padZeros_ne_nil (w n : Nat) : padZeros w n ≠ [] := by
  unfold padZeros
  simp only [ne_eq, List.append_eq_nil]
  intro h
  exact toDecimal_ne_nil n h.2

lemma padZeros_length (w n : Nat) (hw : 0 < w) (hn : n < 10 ^ w) :
    (padZeros w n).length = w := by
  unfold padZeros
  rw [List.length_append, List.length_replicate]
  have := toDecimal_length_le n w hw hn
  omega

lemma stripPlus_of_digits (l : List Char) (h : ∀ c ∈ l, c.isDigit = true) :
    stripPlus l = l := by
  cases l with
  | nil => rfl
  | cons c cs =>
    have hd := h c (by simp)
    have hne : ¬ c = '+' := by
      intro e
      subst e
      revert hd
      decide
    rw [stripPlus, if_neg hne]

lemma parseU32_padZeros (w n : Nat) (h32 : n < 4294967296) :
    parseU32 (padZeros w n) = some n := by
  have hd := padZeros_digits w n
  have hne := padZeros_ne_nil w n
  have hstrip : stripPlus (padZeros w n) = padZeros w n := stripPlus_of_digits _ hd
  have hfold : (padZeros w n).foldl (fun a c => a * 10 + digitVal c) 0 = n := by
    unfold padZeros
    rw [List.foldl_append, foldl_replicate_zero, toDecimal_foldl]
    simp
  unfold parseU32
  rw [hstrip, if_neg hne, if_pos (List.all_eq_true.mpr hd), hfold, if_pos h32]

/-! Helper lemmas about splitting and the parsing pipeline. -/

lemma splitOnChar_ne_nil (sep : Char) (l : List Char) : splitOnChar sep l ≠ [] := by
  cases l with
  | nil => simp [splitOnChar]
  | cons c cs =>
    rw [splitOnChar]
    split
    · simp
    · split <;> simp

lemma splitOnChar_no_sep (sep : Char) (l : List Char) (h : ∀ c ∈ l, c ≠ sep) :
    splitOnChar sep l = [l] := by
  induction l with
  | nil => rfl
  | cons c cs ih =>
    rw [splitOnChar, if_neg (h c (by simp)), ih (fun x hx => h x (by simp [hx]))]

lemma splitOnChar_append_sep (sep : Char) (A B : List Char) (h : ∀ c ∈ A, c ≠ sep) :
    splitOnChar sep (A ++ sep :: B) = A :: splitOnChar sep B := by
  induction A with
  | nil =>
    rw [List.nil_append, splitOnChar, if_pos rfl]
  | cons a as ih =>
    rw [List.cons_append, splitOnChar, if_neg (h a (by simp)),
      ih (fun x hx => h x (by simp [hx]))]

lemma ne_of_isDigit {c d : Char} (h : c.isDigit = true) (hd : d.isDigit = false) :
    c ≠ d := by
  intro e
  subst e
  rw [h] at hd
  cases hd

lemma from_str_via_aux (s hms : List Char) (u : Nat)
    (h : splitOnChar '.' s = [hms] ∧ u = 0 ∨
      ∃ fr, splitOnChar '.' s = [hms, fr] ∧ parseU32 fr = some u) :
    from_str s = from_str_aux hms u := by
  rcases h with ⟨h1, rfl⟩ | ⟨fr, h1, h2⟩
  · unfold from_str
    rw [h1]
  · unfold from_str
    rw [h1]
    simp only [h2]

lemma from_str_aux_ok (hms a b c : List Char) (h m s2 u : Nat)
    (hsp : splitOnChar ':' hms = [a, b, c])
    (ha : parseU32 a = some h) (hb : parseU32 b = some m) (hc : parseU32 c = some s2) :
    from_str_aux hms u = .ok ⟨(h * 3600 + m * 60 + s2) % 4294967296, u⟩ := by
  unfold from_str_aux
  rw [hsp]
  simp only [ha, hb, hc]

lemma from_str_ok_of_shape (s hms a b c : List Char) (h m s2 u : Nat)
    (hdot : splitOnChar '.' s = [hms] ∧ u = 0 ∨
      ∃ fr, splitOnChar '.' s = [hms, fr] ∧ parseU32 fr = some u)
    (hsp : splitOnChar ':' hms = [a, b, c])
    (ha : parseU32 a = some h) (hb : parseU32 b = some m) (hc : parseU32 c = some s2) :
    from_str s = .ok ⟨(h * 3600 + m * 60 + s2) % 4294967296, u⟩ := by
  rw [from_str_via_aux s hms u hdot, from_str_aux_ok hms a b c h m s2 u hsp ha hb hc]

lemma from_str_format (t : WallClockTime) (hs : t.seconds < 86400) (hm : t.micros < 1000000) :
    from_str (formatWCT t) = .ok t := by
  have hdotF : ('.' : Char).isDigit = false := by decide
  have hcolF : (':' : Char).isDigit = false := by decide
  have hH := padZeros_digits 2 (hour t)
  have hM := padZeros_digits 2 (minute t)
  have hS := padZeros_digits 2 (second t)
  have hU := padZeros_digits 6 t.micros
  have hsplitColon : splitOnChar ':'
        (padZeros 2 (hour t) ++ ':' :: (padZeros 2 (minute t) ++ ':' :: padZeros 2 (second t)))
      = [padZeros 2 (hour t), padZeros 2 (minute t), padZeros 2 (second t)] := by
    rw [splitOnChar_append_sep ':' _ _ (fun c hc => ne_of_isDigit (hH c hc) hcolF),
      splitOnChar_append_sep ':' _ _ (fun c hc => ne_of_isDigit (hM c hc) hcolF),
      splitOnChar_no_sep ':' _ (fun c hc => ne_of_isDigit (hS c hc) hcolF)]
  have hNoDot : ∀ c ∈ padZeros 2 (hour t) ++ ':' ::
      (padZeros 2 (minute t) ++ ':' :: padZeros 2 (second t)), c ≠ '.' := by
    intro c hc
    simp only [List.mem_append, List.mem_cons] at hc
    rcases hc with h1 | h1 | h1 | h1 | h1
    · exact ne_of_isDigit (hH c h1) hdotF
    · subst h1; decide
    · exact ne_of_isDigit (hM c h1) hdotF
    · subst h1; decide
    · exact ne_of_isDigit (hS c h1) hdotF
  have hhour32 : hour t < 4294967296 := by unfold hour; omega
  have hmin32 : minute t < 4294967296 := by unfold minute; omega
  have hsec32 : second t < 4294967296 := by unfold second; omega
  have hval : (hour t * 3600 + minute t * 60 + second t) % 4294967296 = t.seconds := by
    unfold hour minute second
    have h1 : t.seconds / 3600 % 256 = t.seconds / 3600 := by omega
    have h2 : t.seconds % 3600 / 60 % 256 = t.seconds % 3600 / 60 := by omega
    have h3 : t.seconds % 60 % 256 = t.seconds % 60 := by omega
    rw [h1, h2, h3]
    have h4 : t.seconds / 3600 * 3600 + t.seconds % 3600 / 60 * 60 + t.seconds % 60
        = t.seconds := by omega
    rw [h4]
    omega
  by_cases h0 : 0 < t.micros
  · have hshape : formatWCT t
        = (padZeros 2 (hour t) ++ ':' :: (padZeros 2 (minute t) ++ ':' :: padZeros 2 (second t)))
          ++ '.' :: padZeros 6 t.micros := by
      unfold formatWCT
      rw [if_pos h0]
      simp [List.append_assoc]
    have hdot : splitOnChar '.'
          ((padZeros 2 (hour t) ++ ':' :: (padZeros 2 (minute t) ++ ':' :: padZeros 2 (second t)))
            ++ '.' :: padZeros 6 t.micros)
        = [padZeros 2 (hour t) ++ ':' :: (padZeros 2 (minute t) ++ ':' :: padZeros 2 (second t)),
            padZeros 6 t.micros] := by
      rw [splitOnChar_append_sep '.' _ _ hNoDot,
        splitOnChar_no_sep '.' _ (fun c hc => ne_of_isDigit (hU c hc) hdotF)]
    rw [hshape]
    rw [from_str_ok_of_shape _ _ _ _ _ (hour t) (minute t) (second t) t.micros
      (Or.inr ⟨padZeros 6 t.micros, hdot, parseU32_padZeros 6 t.micros (by omega)⟩)
      hsplitColon
      (parseU32_padZeros 2 (hour t) hhour32)
      (parseU32_padZeros 2 (minute t) hmin32)
      (parseU32_padZeros 2 (second t) hsec32)]
    rw [hval]
  · have hU0 : t.micros = 0 := by omega
    have hshape : formatWCT t
        = padZeros 2 (hour t) ++ ':' :: (padZeros 2 (minute t) ++ ':' :: padZeros 2 (second t)) := by
      unfold formatWCT
      rw [if_neg h0]
      simp
    rw [hshape]
    rw [from_str_ok_of_shape _ _ _ _ _ (hour t) (minute t) (second t) 0
      (Or.inl ⟨splitOnChar_no_sep '.' _ hNoDot, rfl⟩)
      hsplitColon
      (parseU32_padZeros 2 (hour t) hhour32)
      (parseU32_padZeros 2 (minute t) hmin32)
      (parseU32_padZeros 2 (second t) hsec32)]
    rw [hval]
    obtain ⟨S, U⟩ := t
    simp only at hU0
    rw [hU0]

/-! Helper lemmas for the parse error cases. -/

lemma from_str_too_many (s : List Char) (h : 2 < (splitOnChar '.' s).length) :
    from_str s = .error "Only one `.` allowed in wall-clock times" := by
  unfold from_str
  cases hl : splitOnChar '.' s with
  | nil => rw [hl] at h; simp at h
  | cons x xs =>
    rw [hl] at h
    cases xs with
    | nil => simp at h
    | cons y ys =>
      cases ys with
      | nil => simp at h
      | cons z zs => rfl

lemma from_str_bad_micros (s hms fr : List Char) (h1 : splitOnChar '.' s = [hms, fr])
    (h2 : parseU32 fr = none) : from_str s = .error "Invalid microseconds" := by
  unfold from_str
  rw [h1]
  simp only [h2]

lemma from_str_aux_bad_shape (hms : List Char) (u : Nat)
    (h : (splitOnChar ':' hms).length ≠ 3) :
    from_str_aux hms u = .error "Invalid HH:MM:SS specified" := by
  unfold from_str_aux
  cases hl : splitOnChar ':' hms with
  | nil => rfl
  | cons a xs =>
    rw [hl] at h
    cases xs with
    | nil => rfl
    | cons b ys =>
      cases ys with
      | nil => rfl
      | cons c zs =>
        cases zs with
        | nil => simp at h
        | cons d ws => rfl

lemma from_str_aux_bad_h (hms a b c : List Char) (u : Nat)
    (hsp : splitOnChar ':' hms = [a, b, c]) (ha : parseU32 a = none) :
    from_str_aux hms u = .error "Invalid HH" := by
  unfold from_str_aux
  rw [hsp]
  simp only [ha]

lemma from_str_aux_bad_m (hms a b c : List Char) (u h : Nat)
    (hsp : splitOnChar ':' hms = [a, b, c]) (ha : parseU32 a = some h)
    (hb : parseU32 b = none) :
    from_str_aux hms u = .error "Invalid MM" := by
  unfold from_str_aux
  rw [hsp]
  simp only [ha, hb]

lemma from_str_aux_bad_s (hms a b c : List Char) (u h m : Nat)
    (hsp : splitOnChar ':' hms = [a, b, c]) (ha : parseU32 a = some h)
    (hb : parseU32 b = some m) (hc : parseU32 c = none) :
    from_str_aux hms u = .error "Invalid SS" := by
  unfold from_str_aux
  rw [hsp]
  simp only [ha, hb, hc]

lemma new_with_micros_bounds (h m s u : Nat) (t : WallClockTime)
    (ht : new_with_micros h m s u = some t) :
    t.seconds < 86400 ∧ t.micros < 1000000 := by
  unfold new_with_micros at ht
  split_ifs at ht with h1 h2 h3 h4
  obtain rfl : (⟨h * 3600 + m * 60 + s, u⟩ : WallClockTime) = t := Option.some.inj ht
  refine ⟨?_, h4⟩
  show h * 3600 + m * 60 + s < 86400
  omega

lemma new_midnight_offset_bounds (so mo : Nat) (t : WallClockTime)
    (ht : new_midnight_offset so mo = some t) :
    t.seconds < 86400 ∧ t.micros < 1000000 := by
  unfold new_midnight_offset at ht
  split_ifs at ht with h1 h2
  obtain rfl : (⟨so, mo⟩ : WallClockTime) = t := Option.some.inj ht
  exact ⟨h1, h2⟩

/-! Claim theorems. -/

/-- C1 counterexample: the claim states that NO construction path can produce an
instance violating the invariant because EVERY construction path validates.
This is false: the parsing path performs no range validation, and the
well-formed input "99:99:99" parses successfully to an instance whose
seconds-since-midnight is 362439, far above the 86400 bound. -/
theorem invariant_counterexample :
    from_str ("99:99:99".toList) = .ok ⟨362439, 0⟩ ∧ 86400 ≤ (362439 : Nat) :=
  ⟨rfl, by norm_num⟩

/-- C1 (amended): every DIRECT constructor validates and rejects out-of-range
input, so any instance produced by new, new_with_micros or
new_midnight_offset satisfies 0 ≤ secondsSinceMidnight < 86400 and
0 ≤ microseconds < 1000000; the parsing path, by contrast, does not
re-validate and can produce out-of-range instances. -/
theorem constructors_validate :
    (∀ h m s u t, new_with_micros h m s u = some t →
      t.seconds < 86400 ∧ t.micros < 1000000)
    ∧ (∀ h m s t, new h m s = some t → t.seconds < 86400 ∧ t.micros < 1000000)
    ∧ (∀ so mo t, new_midnight_offset so mo = some t →
      t.seconds < 86400 ∧ t.micros < 1000000) :=
  ⟨fun h m s u t ht => new_with_micros_bounds h m s u t ht,
   fun h m s t ht => new_with_micros_bounds h m s 0 t ht,
   fun so mo t ht => new_midnight_offset_bounds so mo t ht⟩

/-- Witness for the amended C1 theorem at a concrete constructed value. -/
theorem constructors_validate_witness :
    (⟨34200, 0⟩ : WallClockTime).seconds < 86400
    ∧ (⟨34200, 0⟩ : WallClockTime).micros < 1000000 :=
  constructors_validate.2.1 9 30 0 ⟨34200, 0⟩ rfl

/-- C2: for every valid value (seconds-since-midnight below 86400 and
microseconds below 1000000), parsing the canonical formatted string succeeds
and returns a value equal to the original. -/
theorem parse_format_roundtrip (t : WallClockTime) (hs : t.seconds < 86400)
    (hm : t.micros < 1000000) : from_str (formatWCT t) = .ok t :=
  from_str_format t hs hm

/-- Witness for C2 at 17:15:30.600000. -/
theorem parse_format_roundtrip_witness :
    from_str (formatWCT ⟨62130, 600000⟩) = .ok ⟨62130, 600000⟩ :=
  parse_format_roundtrip ⟨62130, 600000⟩ (by decide) (by decide)

/-- C3: for in-range hours, minutes, seconds and microseconds, construction
via new_with_micros succeeds and the accessors recover exactly the inputs,
with hour, minute and second computed by the divisions and remainders of the
claim. -/
theorem new_with_micros_accessors (h m s u : Nat) (hh : h < 24) (hm : m < 60)
    (hs : s < 60) (hu : u < 1000000) :
    ∃ t, new_with_micros h m s u = some t
      ∧ hour t = h ∧ minute t = m ∧ second t = s ∧ microsecond t = u := by
  refine ⟨⟨h * 3600 + m * 60 + s, u⟩, ?_, ?_, ?_, ?_, rfl⟩
  · unfold new_with_micros
    rw [if_pos hh, if_pos hm, if_pos hs, if_pos hu]
  · show (h * 3600 + m * 60 + s) / 3600 % 256 = h
    omega
  · show (h * 3600 + m * 60 + s) % 3600 / 60 % 256 = m
    omega
  · show (h * 3600 + m * 60 + s) % 60 % 256 = s
    omega

/-- Witness for C3 at 17:15:30.600000. -/
theorem new_with_micros_accessors_witness :
    ∃ t, new_with_micros 17 15 30 600000 = some t
      ∧ hour t = 17 ∧ minute t = 15 ∧ second t = 30 ∧ microsecond t = 600000 :=
  new_with_micros_accessors 17 15 30 600000 (by decide) (by decide) (by decide) (by decide)

/-- C4: for every valid value, formatting produces the string HH:MM:SS,
extended by a dot and FFFFFF exactly when microseconds is nonzero, where the
HH, MM and SS segments are exactly two zero-padded decimal digits and FFFFFF
is exactly six zero-padded decimal digits. -/
theorem format_canonical (t : WallClockTime) (hs : t.seconds < 86400)
    (hm : t.micros < 1000000) :
    formatWCT t = padZeros 2 (hour t) ++ ':' :: (padZeros 2 (minute t) ++ ':'
        :: (padZeros 2 (second t)
          ++ (if t.micros = 0 then [] else '.' :: padZeros 6 t.micros)))
    ∧ (padZeros 2 (hour t)).length = 2
    ∧ (padZeros 2 (minute t)).length = 2
    ∧ (padZeros 2 (second t)).length = 2
    ∧ (∀ c ∈ padZeros 2 (hour t), c.isDigit = true)
    ∧ (∀ c ∈ padZeros 2 (minute t), c.isDigit = true)
    ∧ (∀ c ∈ padZeros 2 (second t), c.isDigit = true)
    ∧ (t.micros ≠ 0 →
        (padZeros 6 t.micros).length = 6 ∧ ∀ c ∈ padZeros 6 t.micros, c.isDigit = true) := by
  have hp2 : (10 : Nat) ^ 2 = 100 := by norm_num
  have hp6 : (10 : Nat) ^ 6 = 1000000 := by norm_num
  refine ⟨?_, ?_, ?_, ?_, padZeros_digits 2 (hour t), padZeros_digits 2 (minute t),
    padZeros_digits 2 (second t), ?_⟩
  · unfold formatWCT
    by_cases h0 : t.micros = 0
    · rw [if_neg (by omega), if_pos h0]
    · rw [if_pos (by omega), if_neg h0]
  · refine padZeros_length 2 (hour t) (by norm_num) ?_
    rw [hp2]
    unfold hour
    omega
  · refine padZeros_length 2 (minute t) (by norm_num) ?_
    rw [hp2]
    unfold minute
    omega
  · refine padZeros_length 2 (second t) (by norm_num) ?_
    rw [hp2]
    unfold second
    omega
  · intro h0
    refine ⟨padZeros_length 6 t.micros (by norm_num) ?_, padZeros_digits 6 t.micros⟩
    rw [hp6]
    omega

/-- Witness for C4 at 17:15:30.600000: the hour segment has exactly two
digit characters. -/
theorem format_canonical_witness :
    (padZeros 2 (hour ⟨62130, 600000⟩)).length = 2 :=
  (format_canonical ⟨62130, 600000⟩ (by decide) (by decide)).2.1

/-- C5 counterexample: the claim states that whenever every segment parses as
an unsigned integer, parsing yields seconds-since-midnight exactly equal to
h*3600 + m*60 + s. For "1193047:00:00" every field parses as a 32-bit
unsigned integer, yet the computation wraps modulo 2^32 and the stored
seconds value 1904 differs from 1193047*3600. -/
theorem parse_exact_value_counterexample :
    parseU32 ("1193047".toList) = some 1193047
    ∧ from_str ("1193047:00:00".toList) = .ok ⟨1904, 0⟩
    ∧ (1904 : Nat) ≠ 1193047 * 3600 + 0 * 60 + 0 :=
  ⟨rfl, rfl, by norm_num⟩

/-- C5 (amended): for every input whose dot and colon segments each parse as
unsigned 32-bit integers, parsing succeeds with seconds-since-midnight equal
to (h*3600 + m*60 + s) modulo 2^32 (wrapping u32 arithmetic, exact whenever
the sum fits in 32 bits) and microseconds equal to the parsed fraction (zero
when absent); no range check is applied, and in particular "99:99:99" parses
to a value the constructors reject. -/
theorem parse_no_range_check :
    (∀ s hms a b c : List Char, ∀ h m s2 u : Nat,
      (splitOnChar '.' s = [hms] ∧ u = 0 ∨
        ∃ fr, splitOnChar '.' s = [hms, fr] ∧ parseU32 fr = some u) →
      splitOnChar ':' hms = [a, b, c] →
      parseU32 a = some h → parseU32 b = some m → parseU32 c = some s2 →
      from_str s = .ok ⟨(h * 3600 + m * 60 + s2) % 4294967296, u⟩)
    ∧ from_str ("99:99:99".toList) = .ok ⟨362439, 0⟩
    ∧ new_midnight_offset 362439 0 = none :=
  ⟨fun s hms a b c h m s2 u hdot hsp ha hb hc =>
    from_str_ok_of_shape s hms a b c h m s2 u hdot hsp ha hb hc, rfl, rfl⟩

/-- Witness for C5 at the input "1:2:3.7". -/
theorem parse_no_range_check_witness :
    from_str ("1:2:3.7".toList) = .ok ⟨(1 * 3600 + 2 * 60 + 3) % 4294967296, 7⟩ :=
  parse_no_range_check.1 ("1:2:3.7".toList) ("1:2:3".toList) ("1".toList) ("2".toList)
    ("3".toList) 1 2 3 7 (Or.inr ⟨"7".toList, rfl, rfl⟩) rfl rfl rfl rfl

/-- C6: each direct numeric constructor panics exactly when one of its bounds
is violated and otherwise succeeds, producing the corresponding value; the
hypotheses restrict the arguments to the ranges of the Rust argument types
(u8 for hours, minutes and seconds, u32 for the other arguments). -/
theorem constructors_panic_iff :
    (∀ h m s : Nat, h < 256 → m < 256 → s < 256 →
      (new h m s = none ↔ 24 ≤ h ∨ 60 ≤ m ∨ 60 ≤ s)
      ∧ (h < 24 → m < 60 → s < 60 → new h m s = some ⟨h * 3600 + m * 60 + s, 0⟩))
    ∧ (∀ h m s u : Nat, h < 256 → m < 256 → s < 256 → u < 4294967296 →
      (new_with_micros h m s u = none ↔ 24 ≤ h ∨ 60 ≤ m ∨ 60 ≤ s ∨ 1000000 ≤ u)
      ∧ (h < 24 → m < 60 → s < 60 → u < 1000000 →
          new_with_micros h m s u = some ⟨h * 3600 + m * 60 + s, u⟩))
    ∧ (∀ so mo : Nat, so < 4294967296 → mo < 4294967296 →
      (new_midnight_offset so mo = none ↔ 86400 ≤ so ∨ 1000000 ≤ mo)
      ∧ (so < 86400 → mo < 1000000 → new_midnight_offset so mo = some ⟨so, mo⟩)) := by
  refine ⟨?_, ?_, ?_⟩
  · intro h m s _ _ _
    constructor
    · unfold new new_with_micros
      split_ifs <;> simp <;> omega
    · intro h1 h2 h3
      unfold new new_with_micros
      rw [if_pos h1, if_pos h2, if_pos h3, if_pos (by norm_num)]
  · intro h m s u _ _ _ _
    constructor
    · unfold new_with_micros
      split_ifs <;> simp <;> omega
    · intro h1 h2 h3 h4
      unfold new_with_micros
      rw [if_pos h1, if_pos h2, if_pos h3, if_pos h4]
  · intro so mo _ _
    constructor
    · unfold new_midnight_offset
      split_ifs <;> simp <;> omega
    · intro h1 h2
      unfold new_midnight_offset
      rw [if_pos h1, if_pos h2]

/-- Witness for C6: a succeeding new, a succeeding new_with_micros, and the
panic condition of new_midnight_offset at an out-of-range offset. -/
theorem constructors_panic_iff_witness :
    new 9 30 0 = some ⟨9 * 3600 + 30 * 60 + 0, 0⟩
    ∧ new_with_micros 17 15 30 600000 = some ⟨17 * 3600 + 15 * 60 + 30, 600000⟩
    ∧ (new_midnight_offset 90000 0 = none ↔ 86400 ≤ 90000 ∨ 1000000 ≤ 0) :=
  ⟨(constructors_panic_iff.1 9 30 0 (by decide) (by decide) (by decide)).2
      (by decide) (by decide) (by decide),
   (constructors_panic_iff.2.1 17 15 30 600000 (by decide) (by decide) (by decide)
      (by decide)).2 (by decide) (by decide) (by decide) (by decide),
   (constructors_panic_iff.2.2 90000 0 (by decide) (by decide)).1⟩

/-- C7: parsing returns a recoverable descriptive error for each malformed
shape: more than one dot yields the too-many-separators error; a fractional
segment that does not parse as u32 yields the invalid-microseconds error; a
first segment that does not split on colons into exactly three parts yields
the malformed-HH:MM:SS error; and a non-numeric hours, minutes or seconds
field yields the corresponding field-specific error. -/
theorem parse_error_cases :
    (∀ s : List Char, 2 < (splitOnChar '.' s).length →
      from_str s = .error "Only one `.` allowed in wall-clock times")
    ∧ (∀ s hms fr : List Char, splitOnChar '.' s = [hms, fr] → parseU32 fr = none →
      from_str s = .error "Invalid microseconds")
    ∧ (∀ s hms : List Char, ∀ u : Nat,
      (splitOnChar '.' s = [hms] ∧ u = 0 ∨
        ∃ fr, splitOnChar '.' s = [hms, fr] ∧ parseU32 fr = some u) →
      (splitOnChar ':' hms).length ≠ 3 →
      from_str s = .error "Invalid HH:MM:SS specified")
    ∧ (∀ s hms a b c : List Char, ∀ u : Nat,
      (splitOnChar '.' s = [hms] ∧ u = 0 ∨
        ∃ fr, splitOnChar '.' s = [hms, fr] ∧ parseU32 fr = some u) →
      splitOnChar ':' hms = [a, b, c] → parseU32 a = none →
      from_str s = .error "Invalid HH")
    ∧ (∀ s hms a b c : List Char, ∀ u h : Nat,
      (splitOnChar '.' s = [hms] ∧ u = 0 ∨
        ∃ fr, splitOnChar '.' s = [hms, fr] ∧ parseU32 fr = some u) →
      splitOnChar ':' hms = [a, b, c] → parseU32 a = some h → parseU32 b = none →
      from_str s = .error "Invalid MM")
    ∧ (∀ s hms a b c : List Char, ∀ u h m : Nat,
      (splitOnChar '.' s = [hms] ∧ u = 0 ∨
        ∃ fr, splitOnChar '.' s = [hms, fr] ∧ parseU32 fr = some u) →
      splitOnChar ':' hms = [a, b, c] → parseU32 a = some h → parseU32 b = some m →
      parseU32 c = none →
      from_str s = .error "Invalid SS") := by
  refine ⟨from_str_too_many, from_str_bad_micros, ?_, ?_, ?_, ?_⟩
  · intro s hms u hdot hlen
    rw [from_str_via_aux s hms u hdot]
    exact from_str_aux_bad_shape hms u hlen
  · intro s hms a b c u hdot hsp ha
    rw [from_str_via_aux s hms u hdot]
    exact from_str_aux_bad_h hms a b c u hsp ha
  · intro s hms a b c u h hdot hsp ha hb
    rw [from_str_via_aux s hms u hdot]
    exact from_str_aux_bad_m hms a b c u h hsp ha hb
  · intro s hms a b c u h m hdot hsp ha hb hc
    rw [from_str_via_aux s hms u hdot]
    exact from_str_aux_bad_s hms a b c u h m hsp ha hb hc

/-- Witness for C7: each of the six error shapes at a concrete input. -/
theorem parse_error_cases_witness :
    from_str ("1.2.3".toList) = .error "Only one `.` allowed in wall-clock times"
    ∧ from_str ("1:2:3.x".toList) = .error "Invalid microseconds"
    ∧ from_str ("9:30".toList) = .error "Invalid HH:MM:SS specified"
    ∧ from_str ("ab:30:00".toList) = .error "Invalid HH"
    ∧ from_str ("1:x:3".toList) = .error "Invalid MM"
    ∧ from_str ("1:2:x".toList) = .error "Invalid SS" :=
  ⟨parse_error_cases.1 ("1.2.3".toList) (by decide),
   parse_error_cases.2.1 ("1:2:3.x".toList) ("1:2:3".toList) ("x".toList) rfl rfl,
   parse_error_cases.2.2.1 ("9:30".toList) ("9:30".toList) 0 (Or.inl ⟨rfl, rfl⟩) (by decide),
   parse_error_cases.2.2.2.1 ("ab:30:00".toList) ("ab:30:00".toList) ("ab".toList)
     ("30".toList) ("00".toList) 0 (Or.inl ⟨rfl, rfl⟩) rfl rfl,
   parse_error_cases.2.2.2.2.1 ("1:x:3".toList) ("1:x:3".toList) ("1".toList) ("x".toList)
     ("3".toList) 0 1 (Or.inl ⟨rfl, rfl⟩) rfl rfl rfl,
   parse_error_cases.2.2.2.2.2 ("1:2:x".toList) ("1:2:x".toList) ("1".toList) ("2".toList)
     ("x".toList) 0 1 2 (Or.inl ⟨rfl, rfl⟩) rfl rfl rfl rfl⟩

lemma wct_eq_of_fields {x y : WallClockTime} (h1 : x.seconds = y.seconds)
    (h2 : x.micros = y.micros) : x = y := by
  cases x
  cases y
  simp_all

lemma from_sql_nonneg (offset : Int) (h0 : 0 ≤ offset) (hlt : offset < 86400000000) :
    (from_sql offset).seconds = (offset / 1000000).toNat
    ∧ (from_sql offset).micros = (offset % 1000000).toNat := by
  constructor
  · show i64AsU32 (Int.tdiv offset 1000000) = (offset / 1000000).toNat
    unfold i64AsU32
    rw [Int.tdiv_eq_ediv h0 (by norm_num)]
    have h1 : 0 ≤ offset / 1000000 := Int.ediv_nonneg h0 (by norm_num)
    have h2 : offset / 1000000 < 4294967296 := by omega
    rw [Int.emod_eq_of_lt h1 h2]
  · show i64AsU32 (Int.tmod offset 1000000) = (offset % 1000000).toNat
    unfold i64AsU32
    rw [Int.tmod_eq_emod h0 (by norm_num)]
    have h1 : 0 ≤ offset % 1000000 := Int.emod_nonneg offset (by norm_num)
    have h2 : offset % 1000000 < 4294967296 := by omega
    rw [Int.emod_eq_of_lt h1 h2]

lemma from_sql_to_sql (t : WallClockTime) (hs : t.seconds < 86400)
    (hm : t.micros < 1000000) : from_sql (to_sql t) = t := by
  have h0 : 0 ≤ to_sql t := by unfold to_sql; omega
  have hlt : to_sql t < 86400000000 := by unfold to_sql; omega
  obtain ⟨hsec, hmic⟩ := from_sql_nonneg (to_sql t) h0 hlt
  have e1 : to_sql t / 1000000 = (t.seconds : Int) := by unfold to_sql; omega
  have e2 : to_sql t % 1000000 = (t.micros : Int) := by unfold to_sql; omega
  refine wct_eq_of_fields ?_ ?_
  · rw [hsec, e1, Int.toNat_natCast]
  · rw [hmic, e2, Int.toNat_natCast]

/-- C8: the structured-serialization adapter serializes a value as the single
string equal to its canonical text form, deserializing that output returns
an equal value, a parse failure surfaces as a deserialization error carrying
the parse error message, and a non-string input shape is a deserialization
error. -/
theorem serde_adapter_contract :
    (∀ t : WallClockTime, t.seconds < 86400 → t.micros < 1000000 →
      serialize t = .str (formatWCT t) ∧ deserialize (serialize t) = .ok t)
    ∧ (∀ (s : List Char) (e : String), from_str s = .error e →
      deserialize (.str s) = .error e)
    ∧ (∃ e : String, deserialize .nonString = .error e) := by
  refine ⟨?_, ?_, ⟨_, rfl⟩⟩
  · intro t hs hm
    exact ⟨rfl, from_str_format t hs hm⟩
  · intro s e he
    show from_str s = .error e
    exact he

/-- Witness for C8 at 09:30:00 together with a surfaced parse failure. -/
theorem serde_adapter_contract_witness :
    (serialize ⟨34200, 0⟩ = .str (formatWCT ⟨34200, 0⟩)
      ∧ deserialize (serialize ⟨34200, 0⟩) = .ok ⟨34200, 0⟩)
    ∧ deserialize (.str ("9:30".toList)) = .error "Invalid HH:MM:SS specified" :=
  ⟨serde_adapter_contract.1 ⟨34200, 0⟩ (by decide) (by decide),
   serde_adapter_contract.2.1 ("9:30".toList) "Invalid HH:MM:SS specified" rfl⟩

/-- C9: the database adapter encodes a valid value as the signed 64-bit
offset seconds*1000000 + micros, decoding a non-negative in-range offset
reconstructs seconds = offset / 1000000 and micros = offset % 1000000, and
consequently decoding the encoding of any valid value returns an equal
value. -/
theorem db_adapter_roundtrip :
    (∀ t : WallClockTime, t.seconds < 86400 → t.micros < 1000000 →
      to_sql t = (t.seconds : Int) * 1000000 + (t.micros : Int)
      ∧ from_sql (to_sql t) = t)
    ∧ (∀ offset : Int, 0 ≤ offset → offset < 86400 * 1000000 →
      (from_sql offset).seconds = (offset / 1000000).toNat
      ∧ (from_sql offset).micros = (offset % 1000000).toNat) :=
  ⟨fun t hs hm => ⟨rfl, from_sql_to_sql t hs hm⟩,
   fun offset h0 hlt => from_sql_nonneg offset h0 (by omega)⟩

/-- Witness for C9 at midnight, noon and the last microsecond of the day. -/
theorem db_adapter_roundtrip_witness :
    from_sql (to_sql ⟨0, 0⟩) = ⟨0, 0⟩
    ∧ from_sql (to_sql ⟨43200, 0⟩) = ⟨43200, 0⟩
    ∧ from_sql (to_sql ⟨86399, 999999⟩) = ⟨86399, 999999⟩
    ∧ (from_sql 3723000017).seconds = ((3723000017 : Int) / 1000000).toNat :=
  ⟨(db_adapter_roundtrip.1 ⟨0, 0⟩ (by decide) (by decide)).2,
   (db_adapter_roundtrip.1 ⟨43200, 0⟩ (by decide) (by decide)).2,
   (db_adapter_roundtrip.1 ⟨86399, 999999⟩ (by decide) (by decide)).2,
   (db_adapter_roundtrip.2 3723000017 (by decide) (by decide)).1⟩

/-- C10: the parse computes h*3600 + m*60 + s in unsigned 32-bit arithmetic:
for the well-formed input "1193047:00:00", whose fields each fit in 32 bits,
parsing does not return an error but a value whose seconds field is reduced
modulo 2^32 and differs from the mathematically exact offset. -/
theorem parse_u32_wrap :
    parseU32 ("1193047".toList) = some 1193047
    ∧ from_str ("1193047:00:00".toList)
      = .ok ⟨(1193047 * 3600 + 0 * 60 + 0) % 4294967296, 0⟩
    ∧ (1193047 * 3600 + 0 * 60 + 0) % 4294967296 ≠ 1193047 * 3600 + 0 * 60 + 0 :=
  ⟨rfl, rfl, by norm_num⟩

end WallClock
